import Mathlib

/-!
Verification of the recurring-task subsystem of the cli-productivity repository
(`TODO/model.py`, `TODO/database.py`, `TODO/dashboard.py`, `TODO/todo_app.py`).

The Python code works on `datetime.date` values carried around as ISO `YYYY-MM-DD`
strings.  We embed calendar dates as a `Date` structure of year/month/day numbers
together with the proleptic-Gregorian ordinal (`datetime.date.toordinal`), the
weekday (`date.weekday`, Monday = 0) and the ISO week number
(`date.isocalendar()[1]`), computed by the standard formulas that Python itself
implements.  Python comparison of `date` objects is lexicographic on
(year, month, day); date plus/minus `timedelta` and weekday arithmetic act on the
ordinal.  Both views are connected below by `toOrdinal_lt_iff` and friends.
-/

namespace CliProd

/-- A calendar date, as Python's `datetime.date` (year, month, day). -/
structure Date where
  year : Nat
  month : Nat
  day : Nat
deriving DecidableEq, Repr

/-- Gregorian leap-year test, as `calendar.isleap` / `datetime`. -/
def isLeap (y : Nat) : Bool :=
  (y % 4 == 0 && y % 100 != 0) || y % 400 == 0

/-- Length of a month (`l` says whether the year is leap). -/
def dim (l : Bool) (m : Nat) : Nat :=
  if m = 2 then (if l then 29 else 28)
  else if m = 4 ∨ m = 6 ∨ m = 9 ∨ m = 11 then 30
  else 31

/-- Days of the year strictly before month `m` (`l`: leap year). -/
def dbm (l : Bool) (m : Nat) : Nat :=
  let e : Nat := if l then 1 else 0
  match m with
  | 1 => 0
  | 2 => 31
  | 3 => 59 + e
  | 4 => 90 + e
  | 5 => 120 + e
  | 6 => 151 + e
  | 7 => 181 + e
  | 8 => 212 + e
  | 9 => 243 + e
  | 10 => 273 + e
  | 11 => 304 + e
  | 12 => 334 + e
  | _ => 0

/-- `d` denotes a real calendar date (what `datetime.date` enforces on construction). -/
def Valid (d : Date) : Prop :=
  1 ≤ d.year ∧ 1 ≤ d.month ∧ d.month ≤ 12 ∧ 1 ≤ d.day ∧ d.day ≤ dim (isLeap d.year) d.month

instance (d : Date) : Decidable (Valid d) := by
  unfold Valid; infer_instance

/-- Ordinal of the last day of year `y - 1`; `toOrdinal` of `(y, 1, 1)` minus 1. -/
def ordYear (y : Nat) : Nat :=
  365 * (y - 1) + (y - 1) / 4 - (y - 1) / 100 + (y - 1) / 400

/-- Python's `date.toordinal`: day number in the proleptic Gregorian calendar,
with `0001-01-01` mapped to 1. -/
def toOrdinal (d : Date) : Nat :=
  ordYear d.year + dbm (isLeap d.year) d.month + d.day

/-- Python's `date.weekday()`: Monday = 0 … Sunday = 6 (0001-01-01 is a Monday). -/
def pyWeekday (d : Date) : Nat := (toOrdinal d - 1) % 7

/-- Ordinal of the Monday of `d`'s week: `d - timedelta(days=d.weekday())`. -/
def weekStartOrd (d : Date) : Nat := toOrdinal d - pyWeekday d

/-- Day of the year, 1-based. -/
def doy (d : Date) : Nat := dbm (isLeap d.year) d.month + d.day

/-- Auxiliary quantity of the ISO-8601 week computation (weekday of Dec 31). -/
def pIso (y : Nat) : Nat := (y + y / 4 - y / 100 + y / 400) % 7

/-- Number of ISO weeks in year `y` (52 or 53). -/
def isoWeeksInYear (y : Nat) : Nat :=
  if pIso y == 4 || pIso (y - 1) == 3 then 53 else 52

/-- Python's `date.isocalendar()[1]`: the ISO-8601 week number. -/
def isoWeekNumber (d : Date) : Nat :=
  let dow := pyWeekday d + 1
  let w := (doy d + 10 - dow) / 7
  if w < 1 then isoWeeksInYear (d.year - 1)
  else if isoWeeksInYear d.year < w then 1
  else w

/-- Python `date` order (`<`): lexicographic on (year, month, day). -/
def dateLt (a b : Date) : Prop :=
  a.year < b.year ∨ (a.year = b.year ∧ (a.month < b.month ∨ (a.month = b.month ∧ a.day < b.day)))

/-- Python `date` order (`<=`). -/
def dateLe (a b : Date) : Prop := dateLt a b ∨ a = b

instance (a b : Date) : Decidable (dateLt a b) := by
  unfold dateLt; infer_instance

instance (a b : Date) : Decidable (dateLe a b) := by
  unfold dateLe; infer_instance

/-- `date + timedelta(days=1)`: the successor calendar day. -/
def nextDay (d : Date) : Date :=
  if d.day < dim (isLeap d.year) d.month then ⟨d.year, d.month, d.day + 1⟩
  else if d.month < 12 then ⟨d.year, d.month + 1, 1⟩
  else ⟨d.year + 1, 1, 1⟩

/-- `date + timedelta(days=k)`. -/
def addDays (k : Nat) (d : Date) : Date :=
  match k with
  | 0 => d
  | k + 1 => addDays k (nextDay d)

/-- `date + relativedelta(months=1)`: next month, day-of-month clamped to the
length of the target month (calendar-correct month arithmetic). -/
def addMonthClamp (d : Date) : Date :=
  if d.month < 12 then ⟨d.year, d.month + 1, min d.day (dim (isLeap d.year) (d.month + 1))⟩
  else ⟨d.year + 1, 1, min d.day 31⟩

/-! ## The task record (`TODO/model.py`)

Date-valued columns are stored as strings in the SQLite database; a stored
string either renders a real date in canonical ISO form, or it is some other
string that `datetime.fromisoformat` rejects.  `DateStr` keeps exactly that
distinction. -/

/-- A stored date string: canonical ISO of a real date, or unparseable text. -/
inductive DateStr where
  | valid (d : Date)
  | malformed (s : String)
deriving DecidableEq, Repr

/-- Error raised by `datetime.fromisoformat` on a malformed date string
(`MalformedDateError` of the specification). -/
inductive DashError where
  | malformedDate
deriving DecidableEq, Repr

/-- `datetime.fromisoformat(s).date()`: the parsed date, or an error. -/
def parseDate : DateStr → Except DashError Date
  | .valid d => .ok d
  | .malformed _ => .error .malformedDate

/-- Python `==` between a stored date string and the canonical ISO string of a
real date.  A malformed string is never the canonical rendering of a date. -/
def dateStrEqDate : Option DateStr → Date → Bool
  | some (.valid c), d => c == d
  | _, _ => false

/-- The row of the `todos` table / the `Todo` dataclass of `TODO/model.py`. -/
structure Todo where
  task : String
  priority : String
  due_date : Option DateStr
  status : String
  date_added : DateStr
  date_completed : Option DateStr
  recurrence : Option String
  id : Option Nat
  parent_id : Option Nat
  aliasName : Option String
deriving DecidableEq, Repr

/-- Python `str.lower()` (ASCII range, character by character). -/
def pyLower (s : String) : String :=
  ⟨s.data.map fun c => if 65 ≤ c.toNat ∧ c.toNat ≤ 90 then Char.ofNat (c.toNat + 32) else c⟩

/-- Whitespace as stripped by Python `str.strip()`. -/
def isSpaceChar (c : Char) : Bool :=
  c == ' ' || c == '\t' || c == '\n' || c == '\r'

/-- Python `str.strip()`: drop leading and trailing whitespace. -/
def pyStrip (s : String) : String :=
  ⟨((s.data.dropWhile isSpaceChar).reverse.dropWhile isSpaceChar).reverse⟩

/-- Python `.replace(" ", "-")`: hyphenate every space. -/
def spacesToHyphens (s : String) : String :=
  ⟨s.data.map fun c => if c = ' ' then '-' else c⟩

/-- Python falsiness of a string: empty. -/
def strEmpty (s : String) : Bool := s.data.isEmpty

/-- `Todo.__post_init__` status normalization: lowercase, strip, fall back to
"pending" outside the enum. -/
def normStatus (s : String) : String :=
  let t := pyStrip (pyLower s)
  if t = "pending" ∨ t = "in-progress" ∨ t = "done" ∨ t = "archived" then t else "pending"

/-- `Todo.__post_init__` priority normalization. -/
def normPriority (s : String) : String :=
  let t := pyStrip (pyLower s)
  if t = "low" ∨ t = "medium" ∨ t = "high" then t else "medium"

/-- `Todo.__post_init__` recurrence normalization: `if self.recurrence:` skips
falsy values (None and ""), otherwise lowercase/strip and drop values outside
{daily, weekly, monthly, none}.  Note the literal string "none" is kept. -/
def normRecurrence : Option String → Option String
  | none => none
  | some s =>
    if strEmpty s then some s
    else
      let t := pyStrip (pyLower s)
      if t = "daily" ∨ t = "weekly" ∨ t = "monthly" ∨ t = "none" then some t else none

/-- `Todo.__post_init__` alias normalization: falsy aliases become None,
otherwise strip, lowercase, replace spaces by hyphens (None if empty). -/
def normAlias : Option String → Option String
  | none => none
  | some s =>
    if strEmpty s then none
    else
      let t := spacesToHyphens (pyLower (pyStrip s))
      if strEmpty t then none else some t

/-- The `Todo(...)` constructor including `__post_init__` normalization. -/
def mkTodo (task priority : String) (due_date : Option DateStr) (status : String)
    (date_added : DateStr) (date_completed : Option DateStr) (recurrence : Option String)
    (id parent_id : Option Nat) (aliasName : Option String) : Todo :=
  { task := task
    priority := normPriority priority
    due_date := due_date
    status := normStatus status
    date_added := date_added
    date_completed := date_completed
    recurrence := normRecurrence recurrence
    id := id
    parent_id := parent_id
    aliasName := normAlias aliasName }

/-- Python truthiness of the `recurrence` field: `None` and `""` are falsy. -/
def recurFalsy : Option String → Bool
  | none => true
  | some s => strEmpty s

/-! ## `is_display_daily` (`TODO/dashboard.py`, lines 61-109)

The target day is handed to the Python function as an ISO string produced by
`date.isoformat()`, hence always parseable; we take it as a `Date`.  The
function also reads the wall clock (`datetime.today()`), which we pass
explicitly as `today`.  Python comparisons of `date` objects are the
lexicographic `dateLt`/`dateLe` above; the weekly branch compares the Monday
`date`s of the two weeks, which (dates being ordered like their ordinals)
is the comparison of the `weekStartOrd` numbers. -/

/-- `is_display_daily(todo, day_iso)` with the wall-clock date made explicit. -/
def isDisplayDaily (todo : Todo) (day : Date) (today : Date) : Except DashError Bool :=
  if recurFalsy todo.recurrence then
    -- One-off tasks
    if todo.status == "done" && dateStrEqDate todo.date_completed day then .ok true
    else
      match parseDate todo.date_added with
      | .error e => .error e
      | .ok added =>
        if dateLt added today ∧ dateLt day today ∧ dateLe added day ∧ todo.status ≠ "done" then
          .ok true
        else if added == day && todo.status != "done" then .ok true
        else .ok false
  else
    -- Recurring tasks
    match parseDate todo.date_added with
    | .error e => .error e
    | .ok task_start_date =>
      if dateLt day task_start_date then .ok false
      else if todo.recurrence == some "daily" then .ok true
      else if todo.recurrence == some "weekly" then
        .ok (decide (weekStartOrd task_start_date ≤ weekStartOrd day))
      else if todo.recurrence == some "monthly" then .ok (day.day == task_start_date.day)
      else .ok false

/-! ## The task store and `TODO/database.py` operations

The SQLite table is modelled as a list of rows in rowid order; an `UPDATE …
WHERE id = ?` maps over the list touching the rows whose `id` equals the given
one (SQL equality, under which NULL matches nothing), and an `INSERT` appends.
Rows inserted inside `refresh_all_recurring_tasks` are modelled with `id :=
none`: the autoincrement id they receive is fresh, so it never equals the id of
any task the loop later updates. -/

/-- SQL `=` on the nullable `id` column: NULL compares equal to nothing. -/
def sqlIdEq : Option Nat → Option Nat → Bool
  | some a, some b => a == b
  | _, _ => false

/-- `complete_todo`: set status "done" and `date_completed` = today on the row. -/
def completeOp (store : List Todo) (tid : Nat) (today : Date) : List Todo :=
  store.map fun u =>
    if sqlIdEq u.id (some tid) then
      { u with status := "done", date_completed := some (.valid today) }
    else u

/-- `set_status`: set the status, with `date_completed` = today when the new
status is "done" and NULL otherwise. -/
def setStatusOp (store : List Todo) (tid : Nat) (st : String) (today : Date) : List Todo :=
  store.map fun u =>
    if sqlIdEq u.id (some tid) then
      { u with status := st
               date_completed := if st == "done" then some (.valid today) else none }
    else u

/-- The `WHERE` clause of the refresh query: recurrence IN
('daily','weekly','monthly') and `date(date_added) < today` (a row whose
`date_added` does not parse yields NULL and is not selected). -/
def selectedB (today : Date) (t : Todo) : Bool :=
  (t.recurrence == some "daily" || t.recurrence == some "weekly"
    || t.recurrence == some "monthly")
  && (match t.date_added with
      | .valid d => decide (dateLt d today)
      | .malformed _ => false)

/-- The per-task `should_create` decision of `refresh_all_recurring_tasks`:
daily always, weekly iff the ISO week numbers differ, monthly iff the month
numbers differ. -/
def shouldCreateB (today : Date) (t : Todo) : Bool :=
  match t.date_added with
  | .valid date_added =>
    if t.recurrence == some "daily" then true
    else if t.recurrence == some "weekly" then
      isoWeekNumber today != isoWeekNumber date_added
    else if t.recurrence == some "monthly" then today.month != date_added.month
    else false
  | .malformed _ => false

/-- The fresh instance built by `refresh_all_recurring_tasks` through the
`Todo(...)` constructor: same task/priority/recurrence/parent/alias fields
passed through `__post_init__`, due date NULL, status "pending", added today,
completion date NULL, no id yet. -/
def freshInstance (today : Date) (old : Todo) : Todo :=
  mkTodo old.task old.priority none "pending" (.valid today) none old.recurrence
    none old.parent_id old.aliasName

/-- `UPDATE todos SET status = 'archived' WHERE id = ?`. -/
def archiveById (i : Option Nat) (u : Todo) : Todo :=
  if sqlIdEq u.id i then { u with status := "archived" } else u

/-- The loop of `refresh_all_recurring_tasks` over the selected snapshot:
archive the old row, then insert a fresh instance when one is due, counting
the insertions. -/
def processOld (today : Date) : List Todo → List Todo → Nat → List Todo × Nat
  | [], store, n => (store, n)
  | t :: rest, store, n =>
    let s1 := store.map (archiveById t.id)
    if shouldCreateB today t then
      processOld today rest (s1 ++ [freshInstance today t]) (n + 1)
    else processOld today rest s1 n

/-- `refresh_all_recurring_tasks` with the wall-clock date made explicit:
returns the final store and the refreshed count. -/
def refreshAll (today : Date) (store : List Todo) : List Todo × Nat :=
  processOld today (store.filter (selectedB today)) store 0

/-! ## The `repeat` command (`TODO/todo_app.py`, lines 289-368)

Only the next-occurrence date computation is embedded: base date (completion
date if truthy, else add date), one period forward, then catch-up while
strictly before today.  The while loop is run with `toOrdinal today` steps of
fuel; `catchUp_not_lt` below shows this fuel never runs out on real dates, so
the definition coincides with the unbounded loop. -/

/-- One recurrence period (`timedelta(days=1)`, `timedelta(weeks=1)`,
`relativedelta(months=1)`). -/
def advancePeriod (rec : String) (d : Date) : Date :=
  if rec == "daily" then addDays 1 d
  else if rec == "weekly" then addDays 7 d
  else addMonthClamp d

/-- `while next_due < today: next_due += period`, with explicit fuel. -/
def catchUpFuel (adv : Date → Date) (today : Date) : Nat → Date → Date
  | 0, next => next
  | fuel + 1, next => if dateLt next today then catchUpFuel adv today fuel (adv next) else next

/-- `task.date_completed or task.date_added`: Python `or` falls through on the
falsy values None and "". -/
def baseDateStr (t : Todo) : DateStr :=
  match t.date_completed with
  | none => t.date_added
  | some (.malformed s) => if strEmpty s then t.date_added else .malformed s
  | some ds => ds

/-- The next-due date computed by the `repeat` command for one task: `none`
when the task is skipped (not done, no true recurrence, unparseable base date,
or a recurrence string matching no branch). -/
def nextOccurrenceDate (t : Todo) (today : Date) : Option Date :=
  if t.status == "done" && !(recurFalsy t.recurrence)
      && (pyLower (t.recurrence.getD "") != "none") then
    match parseDate (baseDateStr t) with
    | .error _ => none
    | .ok base_date =>
      if t.recurrence == some "daily" then
        some (catchUpFuel (advancePeriod "daily") today (toOrdinal today) (addDays 1 base_date))
      else if t.recurrence == some "weekly" then
        some (catchUpFuel (advancePeriod "weekly") today (toOrdinal today) (addDays 7 base_date))
      else if t.recurrence == some "monthly" then
        some (catchUpFuel (advancePeriod "monthly") today (toOrdinal today)
          (addMonthClamp base_date))
      else none
  else none

/-! ## Calendar arithmetic lemmas -/

lemma dim_pos (l : Bool) (m : Nat) : 1 ≤ dim l m := by
  unfold dim; split_ifs <;> omega

lemma dim_le_31 (l : Bool) (m : Nat) : dim l m ≤ 31 := by
  unfold dim; split_ifs <;> omega

lemma dbm_step (l : Bool) : ∀ m < 11, dbm l (m + 2) = dbm l (m + 1) + dim l (m + 1) := by
  cases l <;> decide

lemma dbm_mono (l : Bool) : ∀ m < 13, ∀ m' < 13, m ≤ m' → dbm l m ≤ dbm l m' := by
  cases l <;> decide

lemma dbm_dim_le (l : Bool) :
    ∀ m < 12, dbm l (m + 1) + dim l (m + 1) ≤ 365 + (if l then 1 else 0) := by
  cases l <;> decide

lemma dbm_twelve (l : Bool) : dbm l 12 + 31 = 365 + (if l then 1 else 0) := by
  cases l <;> decide

lemma dbm_one (l : Bool) : dbm l 1 = 0 := by cases l <;> rfl

lemma ordYear_succ (y : Nat) (hy : 1 ≤ y) :
    ordYear (y + 1) = ordYear y + 365 + (if isLeap y then 1 else 0) := by
  obtain ⟨a, rfl⟩ : ∃ a, y = a + 1 := ⟨y - 1, by omega⟩
  unfold ordYear isLeap
  simp only [Nat.add_sub_cancel, Nat.succ_div,
    Bool.or_eq_true, Bool.and_eq_true, beq_iff_eq, bne_iff_ne]
  have h1 : (a + 1) / 100 ≤ (a + 1) / 4 := Nat.div_le_div_left (by norm_num) (by norm_num)
  have h2 : a / 100 ≤ a / 4 := Nat.div_le_div_left (by norm_num) (by norm_num)
  split_ifs <;> omega

lemma ordYear_le_succ (y : Nat) : ordYear y ≤ ordYear (y + 1) := by
  rcases Nat.eq_zero_or_pos y with h | h
  · subst h; simp [ordYear]
  · rw [ordYear_succ y h]; omega

lemma ordYear_mono {y y' : Nat} (h : y ≤ y') : ordYear y ≤ ordYear y' := by
  induction y' with
  | zero =>
    have hz : y = 0 := by omega
    subst hz; exact le_rfl
  | succ n ih =>
    rcases Nat.lt_or_ge y (n + 1) with h' | h'
    · exact le_trans (ih (by omega)) (ordYear_le_succ n)
    · have hy : y = n + 1 := by omega
      subst hy; exact le_rfl

lemma valid_mk {y m dy : Nat} :
    Valid ⟨y, m, dy⟩ ↔ 1 ≤ y ∧ 1 ≤ m ∧ m ≤ 12 ∧ 1 ≤ dy ∧ dy ≤ dim (isLeap y) m := Iff.rfl

lemma toOrdinal_mk {y m dy : Nat} :
    toOrdinal ⟨y, m, dy⟩ = ordYear y + dbm (isLeap y) m + dy := rfl

lemma toOrdinal_pos {d : Date} (h : Valid d) : 1 ≤ toOrdinal d := by
  obtain ⟨-, -, -, h4, -⟩ := h
  unfold toOrdinal; omega

lemma dbm_day_le {l : Bool} {m day : Nat} (h1 : 1 ≤ m) (h2 : m ≤ 12) (h3 : day ≤ dim l m) :
    dbm l m + day ≤ 365 + (if l then 1 else 0) := by
  have := dbm_dim_le l (m - 1) (by omega)
  have hm : m - 1 + 1 = m := by omega
  rw [hm] at this
  omega

lemma toOrdinal_lt_of_dateLt {a b : Date} (ha : Valid a) (hb : Valid b) (h : dateLt a b) :
    toOrdinal a < toOrdinal b := by
  obtain ⟨hay, ham1, ham2, had1, had2⟩ := ha
  obtain ⟨hby, hbm1, hbm2, hbd1, hbd2⟩ := hb
  rcases h with hy | ⟨hy, hm | ⟨hm, hd⟩⟩
  · -- strictly later year
    have h1 : toOrdinal a ≤ ordYear a.year + 365 + (if isLeap a.year then 1 else 0) := by
      have := dbm_day_le (l := isLeap a.year) ham1 ham2 had2
      unfold toOrdinal; omega
    have h2 : ordYear a.year + 365 + (if isLeap a.year then 1 else 0) = ordYear (a.year + 1) :=
      (ordYear_succ a.year hay).symm
    have h3 : ordYear (a.year + 1) ≤ ordYear b.year := ordYear_mono (by omega)
    have h4 : ordYear b.year < toOrdinal b := by unfold toOrdinal; omega
    omega
  · -- same year, strictly later month
    have hstep := dbm_step (isLeap b.year) (a.month - 1) (by omega)
    have hm1 : a.month - 1 + 2 = a.month + 1 := by omega
    have hm2 : a.month - 1 + 1 = a.month := by omega
    rw [hm1, hm2] at hstep
    have hmono := dbm_mono (isLeap b.year) (a.month + 1) (by omega) b.month (by omega) (by omega)
    have had2' : a.day ≤ dim (isLeap b.year) a.month := by rw [← hy]; exact had2
    unfold toOrdinal
    rw [hy]
    omega
  · -- same year and month, strictly later day
    unfold toOrdinal; rw [hy, hm]; omega

lemma dateLt_trichotomy (a b : Date) : dateLt a b ∨ a = b ∨ dateLt b a := by
  obtain ⟨ya, ma, da⟩ := a; obtain ⟨yb, mb, db⟩ := b
  simp only [dateLt, Date.mk.injEq]
  omega

lemma dateLt_irrefl (a : Date) : ¬ dateLt a a := by
  unfold dateLt; omega

lemma toOrdinal_lt_iff {a b : Date} (ha : Valid a) (hb : Valid b) :
    dateLt a b ↔ toOrdinal a < toOrdinal b := by
  constructor
  · exact toOrdinal_lt_of_dateLt ha hb
  · intro h
    rcases dateLt_trichotomy a b with h1 | h1 | h1
    · exact h1
    · subst h1; omega
    · have := toOrdinal_lt_of_dateLt hb ha h1; omega

lemma toOrdinal_le_iff {a b : Date} (ha : Valid a) (hb : Valid b) :
    dateLe a b ↔ toOrdinal a ≤ toOrdinal b := by
  constructor
  · rintro (h | rfl)
    · exact le_of_lt (toOrdinal_lt_of_dateLt ha hb h)
    · exact le_rfl
  · intro h
    rcases dateLt_trichotomy a b with h1 | h1 | h1
    · exact Or.inl h1
    · exact Or.inr h1
    · have := toOrdinal_lt_of_dateLt hb ha h1; omega

lemma not_dateLt_iff {a b : Date} (ha : Valid a) (hb : Valid b) :
    ¬ dateLt a b ↔ dateLe b a := by
  rw [toOrdinal_le_iff hb ha, toOrdinal_lt_iff ha hb]; omega

lemma nextDay_valid {d : Date} (h : Valid d) : Valid (nextDay d) := by
  obtain ⟨h1, h2, h3, h4, h5⟩ := h
  unfold nextDay
  split_ifs with hd hm
  · rw [valid_mk]; omega
  · rw [valid_mk]
    have := dim_pos (isLeap d.year) (d.month + 1)
    omega
  · rw [valid_mk]
    have := dim_pos (isLeap (d.year + 1)) 1
    omega

lemma toOrdinal_nextDay {d : Date} (h : Valid d) : toOrdinal (nextDay d) = toOrdinal d + 1 := by
  obtain ⟨h1, h2, h3, h4, h5⟩ := h
  unfold nextDay
  split_ifs with hd hm
  · rw [toOrdinal_mk]; unfold toOrdinal; omega
  · have hstep := dbm_step (isLeap d.year) (d.month - 1) (by omega)
    have hm1 : d.month - 1 + 2 = d.month + 1 := by omega
    have hm2 : d.month - 1 + 1 = d.month := by omega
    rw [hm1, hm2] at hstep
    rw [toOrdinal_mk]; unfold toOrdinal
    omega
  · have hmon : d.month = 12 := by omega
    have hday : d.day = 31 := by
      have hdim : dim (isLeap d.year) 12 = 31 := by cases isLeap d.year <;> rfl
      rw [hmon] at h5 hd; omega
    have hsucc := ordYear_succ d.year h1
    have htw := dbm_twelve (isLeap d.year)
    have hone := dbm_one (isLeap (d.year + 1))
    rw [toOrdinal_mk]; unfold toOrdinal
    rw [hone, hmon, hday]
    omega

lemma addDays_valid {d : Date} (k : Nat) (h : Valid d) : Valid (addDays k d) := by
  induction k generalizing d with
  | zero => exact h
  | succ n ih => exact ih (nextDay_valid h)

lemma toOrdinal_addDays {d : Date} (k : Nat) (h : Valid d) :
    toOrdinal (addDays k d) = toOrdinal d + k := by
  induction k generalizing d with
  | zero => rfl
  | succ n ih =>
    have := ih (nextDay_valid h)
    unfold addDays
    rw [this, toOrdinal_nextDay h]
    omega

lemma addMonthClamp_valid {d : Date} (h : Valid d) : Valid (addMonthClamp d) := by
  obtain ⟨h1, h2, h3, h4, h5⟩ := h
  unfold addMonthClamp
  split_ifs with hm
  · rw [valid_mk]
    have := dim_pos (isLeap d.year) (d.month + 1)
    omega
  · rw [valid_mk]
    have hd1 : dim (isLeap (d.year + 1)) 1 = 31 := by cases isLeap (d.year + 1) <;> rfl
    omega

lemma dateLt_addMonthClamp (d : Date) : dateLt d (addMonthClamp d) := by
  unfold addMonthClamp dateLt
  split_ifs with hm <;> dsimp <;> omega

lemma toOrdinal_lt_addMonthClamp {d : Date} (h : Valid d) :
    toOrdinal d < toOrdinal (addMonthClamp d) :=
  toOrdinal_lt_of_dateLt h (addMonthClamp_valid h) (dateLt_addMonthClamp d)

/-- The fuelled while-loop reaches a date on/after `today` whenever the fuel
bound dominates the remaining ordinal gap; validity is preserved. -/
lemma catchUpFuel_ge (adv : Date → Date)
    (hadv : ∀ d, Valid d → Valid (adv d) ∧ toOrdinal d < toOrdinal (adv d))
    (today : Date) (ht : Valid today) :
    ∀ fuel next, Valid next → toOrdinal today ≤ toOrdinal next + fuel →
      Valid (catchUpFuel adv today fuel next) ∧
      ¬ dateLt (catchUpFuel adv today fuel next) today := by
  intro fuel
  induction fuel with
  | zero =>
    intro next hv hb
    refine ⟨hv, ?_⟩
    show ¬ dateLt next today
    rw [toOrdinal_lt_iff hv ht]
    omega
  | succ n ih =>
    intro next hv hb
    unfold catchUpFuel
    split_ifs with hlt
    · obtain ⟨hv', hgt⟩ := hadv next hv
      exact ih (adv next) hv' (by omega)
    · refine ⟨hv, hlt⟩

lemma catchUpFuel_exit (adv : Date → Date) (today : Date) (fuel : Nat) (next : Date)
    (h : ¬ dateLt next today) : catchUpFuel adv today fuel next = next := by
  cases fuel with
  | zero => rfl
  | succ n =>
    show (if dateLt next today then catchUpFuel adv today n (adv next) else next) = next
    rw [if_neg h]

lemma catchUpFuel_step (adv : Date → Date) (today : Date) (fuel : Nat) (next : Date)
    (h : dateLt next today) :
    catchUpFuel adv today (fuel + 1) next = catchUpFuel adv today fuel (adv next) := by
  show (if dateLt next today then catchUpFuel adv today fuel (adv next) else next) = _
  rw [if_pos h]

lemma weekStartOrd_eq (d : Date) (h : 1 ≤ toOrdinal d) :
    weekStartOrd d = 7 * ((toOrdinal d - 1) / 7) + 1 := by
  unfold weekStartOrd pyWeekday
  omega

lemma weekStartOrd_mono {a b : Date} (ha : 1 ≤ toOrdinal a)
    (h : toOrdinal a ≤ toOrdinal b) : weekStartOrd a ≤ weekStartOrd b := by
  rw [weekStartOrd_eq a ha, weekStartOrd_eq b (by omega)]
  have := Nat.div_le_div_right (c := 7) (show toOrdinal a - 1 ≤ toOrdinal b - 1 by omega)
  omega

/-! ## Characterization of the refresh loop -/

lemma sqlIdEq_none_left (i : Option Nat) : sqlIdEq none i = false := rfl

lemma freshInstance_id (today : Date) (t : Todo) : (freshInstance today t).id = none := rfl

lemma archiveById_id (i : Option Nat) (u : Todo) : (archiveById i u).id = u.id := by
  unfold archiveById; split_ifs <;> rfl

lemma selectedB_archiveById (today : Date) (i : Option Nat) (u : Todo) :
    selectedB today (archiveById i u) = selectedB today u := by
  unfold archiveById; split_ifs <;> rfl

lemma shouldCreateB_archiveById (today : Date) (i : Option Nat) (u : Todo) :
    shouldCreateB today (archiveById i u) = shouldCreateB today u := by
  unfold archiveById; split_ifs <;> rfl

lemma selectedB_freshInstance (today : Date) (t : Todo) :
    selectedB today (freshInstance today t) = false := by
  unfold selectedB freshInstance mkTodo
  simp [dateLt_irrefl]

/-- The refresh loop archives (by id) every task of the selected snapshot and
appends one fresh instance per snapshot task that is due, counting them. -/
lemma processOld_spec (today : Date) :
    ∀ (old store : List Todo) (n : Nat),
      processOld today old store n =
        (store.map (fun u =>
            if old.any (fun t => sqlIdEq u.id t.id) then { u with status := "archived" } else u)
          ++ (old.filter (shouldCreateB today)).map (freshInstance today),
         n + (old.filter (shouldCreateB today)).length) := by
  intro old
  induction old with
  | nil =>
    intro store n
    simp [processOld]
  | cons t rest ih =>
    intro store n
    have hmapeq : ∀ (s : List Todo),
        (s.map (archiveById t.id)).map (fun u =>
            if rest.any (fun x => sqlIdEq u.id x.id) then { u with status := "archived" } else u)
          = s.map (fun u =>
            if (t :: rest).any (fun x => sqlIdEq u.id x.id) then { u with status := "archived" }
            else u) := by
      intro s
      rw [List.map_map]
      refine List.map_congr_left ?_
      intro u _
      simp only [Function.comp_apply, archiveById, List.any_cons]
      by_cases h : sqlIdEq u.id t.id = true
      · rw [if_pos h]
        dsimp only
        simp [h]
      · rw [if_neg h]
        simp only [Bool.not_eq_true] at h
        simp [h]
    unfold processOld
    by_cases hc : shouldCreateB today t = true
    · rw [if_pos hc, ih]
      have hfr : (rest.any fun x => sqlIdEq (freshInstance today t).id x.id) = false := by
        simp [freshInstance_id, sqlIdEq_none_left]
      simp only [List.map_append, List.map_cons, List.map_nil, hfr, Bool.false_eq_true,
        if_false, hmapeq, List.filter_cons, hc, if_true, List.length_cons]
      simp only [List.append_assoc, List.singleton_append, Prod.mk.injEq]
      exact ⟨trivial, by omega⟩
    · rw [if_neg hc, ih]
      simp only [hmapeq, List.filter_cons, hc]
      simp

/-- The archiving applied to a pre-existing row by the refresh run: status
forced to "archived" when the row's id is among the selected snapshot's ids. -/
def archOf (today : Date) (store : List Todo) (u : Todo) : Todo :=
  if (store.filter (selectedB today)).any (fun t => sqlIdEq u.id t.id) then
    { u with status := "archived" } else u

/-- The selected tasks for which the refresh run creates a fresh instance. -/
def dueList (today : Date) (store : List Todo) : List Todo :=
  (store.filter (selectedB today)).filter (shouldCreateB today)

/-- Declarative description of one refresh run: archive the selected rows in
place, append one fresh instance per due selected task, return the number of
fresh instances. -/
lemma refreshAll_spec (today : Date) (store : List Todo) :
    refreshAll today store =
      (store.map (archOf today store) ++ (dueList today store).map (freshInstance today),
       (dueList today store).length) := by
  unfold refreshAll dueList archOf
  rw [processOld_spec]
  simp

lemma filter_map_comm {f : Todo → Todo} {p : Todo → Bool} (hf : ∀ u, p (f u) = p u) :
    ∀ l : List Todo, (l.map f).filter p = (l.filter p).map f := by
  intro l
  induction l with
  | nil => rfl
  | cons a l ih =>
    simp only [List.map_cons, List.filter_cons, hf a]
    by_cases h : p a = true
    · rw [if_pos h, if_pos h, List.map_cons, ih]
    · rw [if_neg h, if_neg h, ih]

lemma filter_none {p : Todo → Bool} :
    ∀ l : List Todo, (∀ u ∈ l, p u = false) → l.filter p = [] := by
  intro l
  induction l with
  | nil => intro; rfl
  | cons a l ih =>
    intro h
    simp only [List.filter_cons, h a (by simp)]
    exact ih fun u hu => h u (by simp [hu])

lemma selectedB_archOf (today : Date) (store : List Todo) (u : Todo) :
    selectedB today (archOf today store u) = selectedB today u := by
  unfold archOf; split_ifs <;> rfl

lemma shouldCreateB_archOf (today : Date) (store : List Todo) (u : Todo) :
    shouldCreateB today (archOf today store u) = shouldCreateB today u := by
  unfold archOf; split_ifs <;> rfl

/-- Rows selected by a second same-day run: exactly the (now archived) rows
that the first run selected — fresh instances fail the strictly-before-today
filter, and archiving does not affect selection. -/
lemma selected_after_refresh (today : Date) (store : List Todo) :
    ((refreshAll today store).1).filter (selectedB today)
      = (store.filter (selectedB today)).map (archOf today store) := by
  rw [refreshAll_spec]
  show ((store.map (archOf today store) ++ (dueList today store).map (freshInstance today)).filter
    (selectedB today)) = _
  rw [List.filter_append, filter_map_comm (selectedB_archOf today store),
    filter_none ((dueList today store).map (freshInstance today)) ?_, List.append_nil]
  intro u hu
  obtain ⟨t, -, rfl⟩ := List.mem_map.mp hu
  exact selectedB_freshInstance today t

lemma dueList_after_refresh (today : Date) (store : List Todo) :
    dueList today (refreshAll today store).1
      = (dueList today store).map (archOf today store) := by
  unfold dueList
  rw [selected_after_refresh, filter_map_comm (shouldCreateB_archOf today store)]

/-! ## Claim C1: same-day idempotence of the refresh cycle -/

/-- A pending daily task created the day before the refresh run. -/
def c1Task : Todo :=
  { task := "water plants", priority := "medium", due_date := none, status := "pending",
    date_added := .valid ⟨2025, 3, 9⟩, date_completed := none, recurrence := some "daily",
    id := some 1, parent_id := none, aliasName := none }

/-- C1 (counterexample): running `refresh_all_recurring_tasks` twice on the same
day is NOT idempotent.  On a store holding one pending daily task added
2025-03-09, the first run on 2025-03-10 leaves 2 records (archived original +
fresh instance), but the second run re-selects the archived original — the
query filters only on recurrence and `date_added < today`, not on status — and
inserts a second fresh instance, leaving 3 records. -/
theorem c1_counterexample :
    (refreshAll ⟨2025, 3, 10⟩ [c1Task]).1.length = 2
    ∧ (refreshAll ⟨2025, 3, 10⟩ ((refreshAll ⟨2025, 3, 10⟩ [c1Task]).1)).1.length = 3 :=
  ⟨rfl, rfl⟩

/-- C1 (amended): a second same-day run of `refresh_all_recurring_tasks`
re-archives the originals and creates one more fresh instance for each task
that was due, so the store grows by the first run's refreshed count; the
second run returns the same count as the first, and same-day idempotence of
the record count holds exactly when no selected task was due. -/
theorem c1_refresh_twice_same_day (today : Date) (store : List Todo) :
    (refreshAll today (refreshAll today store).1).1.length
        = (refreshAll today store).1.length + (refreshAll today store).2
    ∧ (refreshAll today (refreshAll today store).1).2 = (refreshAll today store).2
    ∧ ((refreshAll today (refreshAll today store).1).1.length
        = (refreshAll today store).1.length ↔ (refreshAll today store).2 = 0) := by
  have h1 := refreshAll_spec today store
  have h2 := refreshAll_spec today (refreshAll today store).1
  have hdue := dueList_after_refresh today store
  have e1 : (refreshAll today store).2 = (dueList today store).length := by rw [h1]
  have e3 : (refreshAll today (refreshAll today store).1).2
      = (dueList today store).length := by
    rw [h2, hdue]; simp
  have e4 : (refreshAll today (refreshAll today store).1).1.length
      = (refreshAll today store).1.length + (dueList today store).length := by
    rw [h2]
    simp [hdue]
  refine ⟨by omega, by omega, by omega⟩

/-! ## Claim C2: the refresh algorithm -/

/-- A normalized daily task used to instantiate the refresh theorem. -/
def c2Task : Todo :=
  { task := "review inbox", priority := "high", due_date := none, status := "pending",
    date_added := .valid ⟨2025, 3, 9⟩, date_completed := none, recurrence := some "daily",
    id := some 7, parent_id := none, aliasName := some "inbox" }

/-- C2: one run of `refresh_all_recurring_tasks` processes exactly the rows
with recurrence daily/weekly/monthly and `date_added` strictly before today
(`selectedB`): it archives each of them in place (never deleting), appends a
fresh instance for exactly the due ones (`shouldCreateB`: daily always, weekly
iff the ISO week numbers differ, monthly iff the month numbers differ), and
returns the number of fresh instances only.  A fresh instance carries the same
task text, priority, recurrence, parent reference and alias, with due date
NULL, status "pending", `date_added` = today and `date_completed` NULL (the
priority/alias hypothesis records that stored rows hold normalized values, so
the constructor's re-normalization is the identity on them). -/
theorem c2_refresh_algorithm (today : Date) (store : List Todo)
    (hnorm : ∀ t ∈ store,
      (t.priority = "low" ∨ t.priority = "medium" ∨ t.priority = "high")
      ∧ normAlias t.aliasName = t.aliasName) :
    (refreshAll today store).1
        = store.map (archOf today store)
          ++ (dueList today store).map (freshInstance today)
    ∧ (refreshAll today store).2 = (dueList today store).length
    ∧ ∀ t ∈ store, selectedB today t = true →
        freshInstance today t =
          { task := t.task, priority := t.priority, due_date := none, status := "pending",
            date_added := .valid today, date_completed := none, recurrence := t.recurrence,
            id := none, parent_id := t.parent_id, aliasName := t.aliasName } := by
  refine ⟨by rw [refreshAll_spec], by rw [refreshAll_spec], ?_⟩
  intro t ht hsel
  obtain ⟨hp, ha⟩ := hnorm t ht
  have hrecs : t.recurrence = some "daily" ∨ t.recurrence = some "weekly"
      ∨ t.recurrence = some "monthly" := by
    unfold selectedB at hsel
    simp only [Bool.and_eq_true, Bool.or_eq_true, beq_iff_eq] at hsel
    tauto
  have hrec : normRecurrence t.recurrence = t.recurrence := by
    rcases hrecs with h | h | h <;> rw [h] <;> rfl
  have hpri : normPriority t.priority = t.priority := by
    rcases hp with h | h | h <;> rw [h] <;> rfl
  unfold freshInstance mkTodo
  rw [hrec, hpri, ha, show normStatus "pending" = "pending" from by decide]

/-- C2 (witness): the refresh theorem instantiated on a concrete store. -/
theorem c2_refresh_algorithm_witness :
    (refreshAll ⟨2025, 3, 10⟩ [c2Task]).1
        = [c2Task].map (archOf ⟨2025, 3, 10⟩ [c2Task])
          ++ (dueList ⟨2025, 3, 10⟩ [c2Task]).map (freshInstance ⟨2025, 3, 10⟩) :=
  (c2_refresh_algorithm ⟨2025, 3, 10⟩ [c2Task] (by decide)).1

/-! ## Reduction lemmas for `is_display_daily` -/

lemma isDisplayDaily_oneoff (t : Todo) (a day today : Date)
    (hrec : recurFalsy t.recurrence = true) (hadd : t.date_added = .valid a) :
    isDisplayDaily t day today =
      if (t.status == "done" && dateStrEqDate t.date_completed day) = true then .ok true
      else if dateLt a today ∧ dateLt day today ∧ dateLe a day ∧ t.status ≠ "done" then .ok true
      else if (a == day && t.status != "done") = true then .ok true
      else .ok false := by
  unfold isDisplayDaily
  rw [hrec, hadd]
  rfl

lemma isDisplayDaily_oneoff_malformed (t : Todo) (s : String) (day today : Date)
    (hrec : recurFalsy t.recurrence = true) (hadd : t.date_added = .malformed s) :
    isDisplayDaily t day today =
      if (t.status == "done" && dateStrEqDate t.date_completed day) = true then .ok true
      else .error .malformedDate := by
  unfold isDisplayDaily
  rw [hrec, hadd]
  rfl

lemma isDisplayDaily_recurring (t : Todo) (r : String) (a day today : Date)
    (hrec : t.recurrence = some r) (hne : strEmpty r = false)
    (hadd : t.date_added = .valid a) :
    isDisplayDaily t day today =
      if dateLt day a then .ok false
      else if (r == "daily") = true then .ok true
      else if (r == "weekly") = true then .ok (decide (weekStartOrd a ≤ weekStartOrd day))
      else if (r == "monthly") = true then .ok (day.day == a.day)
      else .ok false := by
  unfold isDisplayDaily
  rw [hrec, hadd]
  have h2 : recurFalsy (some r) = false := hne
  rw [h2]
  rfl

lemma isDisplayDaily_recurring_malformed (t : Todo) (s : String) (day today : Date)
    (hrec : recurFalsy t.recurrence = false) (hadd : t.date_added = .malformed s) :
    isDisplayDaily t day today = .error .malformedDate := by
  unfold isDisplayDaily
  rw [hrec, hadd]
  rfl

lemma dateStrEqDate_iff (o : Option DateStr) (d : Date) :
    dateStrEqDate o d = true ↔ o = some (.valid d) := by
  match o with
  | none => simp [dateStrEqDate]
  | some (.valid c) => simp [dateStrEqDate]
  | some (.malformed s) => simp [dateStrEqDate]

lemma dateLt_not_le {a b : Date} (ha : Valid a) (hb : Valid b) (h : dateLt b a) :
    ¬ dateLe a b := by
  rw [toOrdinal_le_iff ha hb]
  have := toOrdinal_lt_of_dateLt hb ha h
  omega

/-! ## Claim C3: malformed `date_added` -/

/-- A done one-off task with an unparseable `date_added`, completed 2025-03-05. -/
def c3Task : Todo :=
  { task := "broken date", priority := "medium", due_date := none, status := "done",
    date_added := .malformed "garbage", date_completed := some (.valid ⟨2025, 3, 5⟩),
    recurrence := none, id := some 2, parent_id := none, aliasName := none }

/-- C3 (counterexample): `is_display_daily` does NOT fail on every task whose
`date_added` is unparseable: for a done one-off task whose completion date
equals the target day, the done-on-this-day check fires before `date_added` is
ever parsed, and the call returns the boolean verdict true instead of raising
`MalformedDateError`. -/
theorem c3_counterexample :
    isDisplayDaily c3Task ⟨2025, 3, 5⟩ ⟨2025, 3, 6⟩ = .ok true
    ∧ isDisplayDaily c3Task ⟨2025, 3, 5⟩ ⟨2025, 3, 6⟩ ≠ .error .malformedDate := by
  refine ⟨rfl, ?_⟩
  have h : isDisplayDaily c3Task ⟨2025, 3, 5⟩ ⟨2025, 3, 6⟩ = .ok true := rfl
  rw [h]
  intro hc
  exact Except.noConfusion hc

/-- C3 (amended): for a task whose `date_added` string is unparseable,
`is_display_daily` fails with `MalformedDateError` for every target day,
except in exactly one case: a non-recurring task that is done with completion
date equal to the target day returns true, because that check precedes the
parse of `date_added`. -/
theorem c3_malformed_date (t : Todo) (s : String) (day today : Date)
    (hadd : t.date_added = .malformed s) :
    (recurFalsy t.recurrence = true → t.status = "done" →
      t.date_completed = some (.valid day) → isDisplayDaily t day today = .ok true)
    ∧ (¬ (recurFalsy t.recurrence = true ∧ t.status = "done"
          ∧ t.date_completed = some (.valid day)) →
        isDisplayDaily t day today = .error .malformedDate) := by
  constructor
  · intro hrec hst hcomp
    rw [isDisplayDaily_oneoff_malformed t s day today hrec hadd]
    have : (t.status == "done" && dateStrEqDate t.date_completed day) = true := by
      rw [Bool.and_eq_true, beq_iff_eq, dateStrEqDate_iff]
      exact ⟨hst, hcomp⟩
    rw [if_pos this]
  · intro hnot
    rcases hb : recurFalsy t.recurrence with hf | ht
    · exact isDisplayDaily_recurring_malformed t s day today hb hadd
    · rw [isDisplayDaily_oneoff_malformed t s day today hb hadd]
      have : ¬ (t.status == "done" && dateStrEqDate t.date_completed day) = true := by
        rw [Bool.and_eq_true, beq_iff_eq, dateStrEqDate_iff]
        intro ⟨h1, h2⟩
        exact hnot ⟨hb, h1, h2⟩
      rw [if_neg this]

/-- A pending one-off task with an unparseable `date_added`. -/
def c3bTask : Todo :=
  { task := "broken pending", priority := "medium", due_date := none, status := "pending",
    date_added := .malformed "oops", date_completed := none,
    recurrence := none, id := some 3, parent_id := none, aliasName := none }

/-- C3 (witness): the amended theorem instantiated on a pending task. -/
theorem c3_malformed_date_witness :
    isDisplayDaily c3bTask ⟨2025, 3, 5⟩ ⟨2025, 3, 6⟩ = .error .malformedDate :=
  (c3_malformed_date c3bTask "oops" ⟨2025, 3, 5⟩ ⟨2025, 3, 6⟩ rfl).2 (by decide)

/-! ## Claim C4: purity of the relevance decision -/

/-- A pending one-off task added 2025-01-10. -/
def c4Task : Todo :=
  { task := "clock sensitive", priority := "medium", due_date := none, status := "pending",
    date_added := .valid ⟨2025, 1, 10⟩, date_completed := none,
    recurrence := none, id := some 4, parent_id := none, aliasName := none }

/-- C4 (counterexample): `is_display_daily` is NOT independent of the current
wall-clock date: for the same (task, day) pair, a pending one-off task added
2025-01-10 is relevant on 2025-01-11 when the wall clock reads 2025-01-12
(overdue window), but not when it reads 2025-01-11. -/
theorem c4_counterexample :
    isDisplayDaily c4Task ⟨2025, 1, 11⟩ ⟨2025, 1, 12⟩ = .ok true
    ∧ isDisplayDaily c4Task ⟨2025, 1, 11⟩ ⟨2025, 1, 11⟩ = .ok false :=
  ⟨rfl, rfl⟩

/-- C4 (amended): `is_display_daily` is a pure, deterministic function of the
triple (task, day, current wall-clock date); for recurring tasks (any truthy
recurrence value) the verdict never depends on the wall-clock date, so the
recurring rules can be evaluated for arbitrary past or future days. -/
theorem c4_recurring_clock_independent (t : Todo) (day t1 t2 : Date)
    (h : recurFalsy t.recurrence = false) :
    isDisplayDaily t day t1 = isDisplayDaily t day t2 := by
  unfold isDisplayDaily
  rw [h]
  rfl

/-- A daily task used to instantiate the clock-independence theorem. -/
def c4bTask : Todo :=
  { task := "stretch", priority := "low", due_date := none, status := "pending",
    date_added := .valid ⟨2025, 1, 10⟩, date_completed := none,
    recurrence := some "daily", id := some 5, parent_id := none, aliasName := none }

/-- C4 (witness): clock independence at a concrete recurring task. -/
theorem c4_recurring_clock_independent_witness :
    isDisplayDaily c4bTask ⟨2025, 1, 12⟩ ⟨2025, 1, 12⟩
      = isDisplayDaily c4bTask ⟨2025, 1, 12⟩ ⟨2026, 7, 1⟩ :=
  c4_recurring_clock_independent c4bTask ⟨2025, 1, 12⟩ ⟨2025, 1, 12⟩ ⟨2026, 7, 1⟩ rfl

/-! ## Claim C5: the weekly window -/

/-- A weekly task anchored on Wednesday 2025-01-08. -/
def c5Task : Todo :=
  { task := "weekly review", priority := "medium", due_date := none, status := "pending",
    date_added := .valid ⟨2025, 1, 8⟩, date_completed := none,
    recurrence := some "weekly", id := some 6, parent_id := none, aliasName := none }

/-- C5 (counterexample): a weekly task anchored on Wednesday 2025-01-08 is NOT
relevant on the Monday (2025-01-06) of its own Monday-start week: that Monday
lies in the same calendar week as the anchor, yet `is_display_daily` returns
false, because the target-before-anchor guard fires before the weekly rule. -/
theorem c5_counterexample :
    pyWeekday ⟨2025, 1, 8⟩ = 2
    ∧ weekStartOrd ⟨2025, 1, 6⟩ = weekStartOrd ⟨2025, 1, 8⟩
    ∧ isDisplayDaily c5Task ⟨2025, 1, 6⟩ ⟨2025, 2, 1⟩ = .ok false :=
  ⟨rfl, rfl, rfl⟩

/-- C5 (amended): for a weekly task anchored on a Wednesday, `is_display_daily`
is true exactly for target days on/after the anchor date — the anchor Wednesday
through the Sunday of its week and every day of every subsequent week — and
false for every day strictly before the anchor, including the Monday and
Tuesday of the anchor's own week and all prior weeks. -/
theorem c5_weekly_window (t : Todo) (a day today : Date)
    (hrec : t.recurrence = some "weekly") (hadd : t.date_added = .valid a)
    (hva : Valid a) (hvd : Valid day) (hwed : pyWeekday a = 2) :
    isDisplayDaily t day today = .ok (decide (dateLe a day)) := by
  rw [isDisplayDaily_recurring t "weekly" a day today hrec (by decide) hadd]
  rw [show (("weekly" : String) == "daily") = false from by decide,
    show (("weekly" : String) == "weekly") = true from by decide]
  simp only [Bool.false_eq_true, if_false, if_true]
  by_cases hlt : dateLt day a
  · rw [if_pos hlt]
    have hnle : ¬ dateLe a day := dateLt_not_le hva hvd hlt
    simp [hnle]
  · rw [if_neg hlt]
    have hle : dateLe a day := (not_dateLt_iff hvd hva).mp hlt
    have hws : weekStartOrd a ≤ weekStartOrd day :=
      weekStartOrd_mono (toOrdinal_pos hva) ((toOrdinal_le_iff hva hvd).mp hle)
    simp [hle, hws]

/-- C5 (witness): the weekly-window theorem at the Thursday after the anchor. -/
theorem c5_weekly_window_witness :
    isDisplayDaily c5Task ⟨2025, 1, 9⟩ ⟨2025, 2, 1⟩
      = .ok (decide (dateLe ⟨2025, 1, 8⟩ ⟨2025, 1, 9⟩)) :=
  c5_weekly_window c5Task ⟨2025, 1, 8⟩ ⟨2025, 1, 9⟩ ⟨2025, 2, 1⟩ rfl rfl
    (by decide) (by decide) rfl

/-! ## Claim C6: non-recurring relevance rules -/

/-- C6: for a task without a (truthy) recurrence whose `date_added` parses to
`a`, `is_display_daily` returns true exactly when (1) the task is done and was
completed on the target day, or (2) it is not done, was added strictly before
the wall-clock date, and the target day lies in the window from the add-date
up to but excluding the wall-clock date, or (3) it is not done and was added
exactly on the target day; in every other case it returns false. -/
theorem c6_oneoff_rules (t : Todo) (a day today : Date)
    (hrec : recurFalsy t.recurrence = true) (hadd : t.date_added = .valid a) :
    (isDisplayDaily t day today = .ok true ↔
      ((t.status = "done" ∧ t.date_completed = some (.valid day))
       ∨ (t.status ≠ "done" ∧ dateLt a today ∧ dateLe a day ∧ dateLt day today)
       ∨ (t.status ≠ "done" ∧ a = day)))
    ∧ (isDisplayDaily t day today = .ok false ↔
      ¬ ((t.status = "done" ∧ t.date_completed = some (.valid day))
         ∨ (t.status ≠ "done" ∧ dateLt a today ∧ dateLe a day ∧ dateLt day today)
         ∨ (t.status ≠ "done" ∧ a = day))) := by
  have hE : isDisplayDaily t day today = .ok true ↔
      ((t.status = "done" ∧ t.date_completed = some (.valid day))
       ∨ (t.status ≠ "done" ∧ dateLt a today ∧ dateLe a day ∧ dateLt day today)
       ∨ (t.status ≠ "done" ∧ a = day)) := by
    rw [isDisplayDaily_oneoff t a day today hrec hadd]
    split_ifs with h1 h2 h3
    · simp only [Bool.and_eq_true, beq_iff_eq, dateStrEqDate_iff] at h1
      exact iff_of_true rfl (Or.inl ⟨h1.1, h1.2⟩)
    · exact iff_of_true rfl (Or.inr (Or.inl ⟨h2.2.2.2, h2.1, h2.2.2.1, h2.2.1⟩))
    · simp only [Bool.and_eq_true, beq_iff_eq, bne_iff_ne] at h3
      exact iff_of_true rfl (Or.inr (Or.inr ⟨h3.2, h3.1⟩))
    · refine iff_of_false (by simp) ?_
      rintro (⟨hs, hc⟩ | ⟨hs, hx, hy, hz⟩ | ⟨hs, he⟩)
      · exact h1 (by simp [Bool.and_eq_true, beq_iff_eq, dateStrEqDate_iff, hs, hc])
      · exact h2 ⟨hx, hz, hy, hs⟩
      · exact h3 (by simp [Bool.and_eq_true, beq_iff_eq, bne_iff_ne, hs, he])
  have hOr : isDisplayDaily t day today = .ok true
      ∨ isDisplayDaily t day today = .ok false := by
    rw [isDisplayDaily_oneoff t a day today hrec hadd]
    split_ifs <;> simp
  refine ⟨hE, ?_, ?_⟩
  · intro hf hp
    rw [hE.mpr hp] at hf
    exact absurd (Except.ok.inj hf) (by simp)
  · intro hnp
    rcases hOr with h | h
    · exact absurd (hE.mp h) hnp
    · exact h

/-- A pending one-off task added 2025-01-10, for the C6 witness. -/
def c6Task : Todo :=
  { task := "single errand", priority := "medium", due_date := none, status := "pending",
    date_added := .valid ⟨2025, 1, 10⟩, date_completed := none,
    recurrence := none, id := some 8, parent_id := none, aliasName := none }

/-- C6 (witness): the rule characterization instantiated on the add-day. -/
theorem c6_oneoff_rules_witness :
    isDisplayDaily c6Task ⟨2025, 1, 10⟩ ⟨2025, 1, 10⟩ = .ok true :=
  (c6_oneoff_rules c6Task ⟨2025, 1, 10⟩ ⟨2025, 1, 10⟩ ⟨2025, 1, 10⟩ rfl rfl).1.mpr
    (Or.inr (Or.inr ⟨by decide, rfl⟩))

/-! ## Claim C7: the monthly window -/

/-- C7: for a monthly task whose anchor parses to `a`, `is_display_daily` is
true exactly on target days on/after the anchor whose day-of-month equals the
anchor's; consequently an anchor on day 29 never matches any day of February
in a non-leap year, and an anchor on the 15th matches only the 15th of each
month from the anchor onward. -/
theorem c7_monthly_window (t : Todo) (a day today : Date)
    (hrec : t.recurrence = some "monthly") (hadd : t.date_added = .valid a)
    (hva : Valid a) (hvd : Valid day) :
    (isDisplayDaily t day today = .ok true ↔ (dateLe a day ∧ day.day = a.day))
    ∧ (isDisplayDaily t day today = .ok false ↔ ¬ (dateLe a day ∧ day.day = a.day))
    ∧ (a.day = 29 → day.month = 2 → isLeap day.year = false →
        isDisplayDaily t day today = .ok false) := by
  have hred : isDisplayDaily t day today =
      if dateLt day a then .ok false else .ok (day.day == a.day) := by
    rw [isDisplayDaily_recurring t "monthly" a day today hrec (by decide) hadd]
    rw [show (("monthly" : String) == "daily") = false from by decide,
      show (("monthly" : String) == "weekly") = false from by decide,
      show (("monthly" : String) == "monthly") = true from by decide]
    simp only [Bool.false_eq_true, if_false, if_true]
  have hE : isDisplayDaily t day today = .ok true ↔ (dateLe a day ∧ day.day = a.day) := by
    rw [hred]
    by_cases hlt : dateLt day a
    · rw [if_pos hlt]
      refine iff_of_false (by simp) ?_
      rintro ⟨hle, -⟩
      exact dateLt_not_le hva hvd hlt hle
    · rw [if_neg hlt]
      have hle : dateLe a day := (not_dateLt_iff hvd hva).mp hlt
      simp [hle, beq_iff_eq]
  have hOr : isDisplayDaily t day today = .ok true
      ∨ isDisplayDaily t day today = .ok false := by
    rw [hred]
    split_ifs
    · simp
    · rcases Bool.eq_false_or_eq_true (day.day == a.day) with h | h <;> rw [h] <;> simp
  refine ⟨hE, ⟨?_, ?_⟩, ?_⟩
  · intro hf hp
    rw [hE.mpr hp] at hf
    exact absurd (Except.ok.inj hf) (by simp)
  · intro hnp
    rcases hOr with h | h
    · exact absurd (hE.mp h) hnp
    · exact h
  · intro h29 hfeb hnl
    rw [hred]
    have hdayle : day.day ≤ 28 := by
      obtain ⟨-, -, -, -, h5⟩ := hvd
      rw [hfeb, hnl] at h5
      simpa [dim] using h5
    by_cases hlt : dateLt day a
    · rw [if_pos hlt]
    · rw [if_neg hlt]
      have : (day.day == a.day) = false := by
        rw [beq_eq_false_iff_ne]
        omega
      rw [this]

/-- A monthly task anchored on the 15th, for the C7 witness. -/
def c7Task : Todo :=
  { task := "pay rent", priority := "high", due_date := none, status := "pending",
    date_added := .valid ⟨2025, 1, 15⟩, date_completed := none,
    recurrence := some "monthly", id := some 9, parent_id := none, aliasName := none }

/-- C7 (witness): the monthly window at the 15th of the following month. -/
theorem c7_monthly_window_witness :
    isDisplayDaily c7Task ⟨2025, 2, 15⟩ ⟨2025, 3, 1⟩ = .ok true :=
  (c7_monthly_window c7Task ⟨2025, 1, 15⟩ ⟨2025, 2, 15⟩ ⟨2025, 3, 1⟩ rfl rfl
    (by decide) (by decide)).1.mpr ⟨by decide, rfl⟩

/-! ## Claim C10: the literal "none" recurrence value -/

/-- C10: the literal recurrence string "none" survives `__post_init__`
normalization (it is in the accepted set, not converted to absent), and a task
carrying it is routed into the recurring branch of `is_display_daily`, where
none of the daily/weekly/monthly rules matches — so for every target day and
every wall-clock date the task is reported not relevant (false), even while
pending or overdue. -/
theorem c10_none_recurrence :
    normRecurrence (some "none") = some "none"
    ∧ ∀ (t : Todo) (day today a : Date), t.recurrence = some "none" →
        t.date_added = .valid a → isDisplayDaily t day today = .ok false := by
  refine ⟨by decide, ?_⟩
  intro t day today a hrec hadd
  rw [isDisplayDaily_recurring t "none" a day today hrec (by decide) hadd]
  rw [show (("none" : String) == "daily") = false from by decide,
    show (("none" : String) == "weekly") = false from by decide,
    show (("none" : String) == "monthly") = false from by decide]
  simp only [Bool.false_eq_true, if_false]
  split_ifs <;> rfl

/-- A pending task with the literal recurrence value "none". -/
def c10Task : Todo :=
  { task := "phantom", priority := "medium", due_date := none, status := "pending",
    date_added := .valid ⟨2025, 5, 1⟩, date_completed := none,
    recurrence := some "none", id := some 10, parent_id := none, aliasName := none }

/-- C10 (witness): the "none"-recurrence task is hidden on its own add-day. -/
theorem c10_none_recurrence_witness :
    isDisplayDaily c10Task ⟨2025, 5, 1⟩ ⟨2025, 5, 1⟩ = .ok false :=
  c10_none_recurrence.2 c10Task ⟨2025, 5, 1⟩ ⟨2025, 5, 1⟩ ⟨2025, 5, 1⟩ rfl rfl

/-! ## Claim C8: the completion-driven `repeat` path -/

lemma advancePeriod_spec (r : String) :
    ∀ d, Valid d → Valid (advancePeriod r d) ∧ toOrdinal d < toOrdinal (advancePeriod r d) := by
  intro d hv
  unfold advancePeriod
  split_ifs with h1 h2
  · exact ⟨addDays_valid 1 hv, by rw [toOrdinal_addDays 1 hv]; omega⟩
  · exact ⟨addDays_valid 7 hv, by rw [toOrdinal_addDays 7 hv]; omega⟩
  · exact ⟨addMonthClamp_valid hv, toOrdinal_lt_addMonthClamp hv⟩

lemma nextOccurrenceDate_done (t : Todo) (today : Date) (r : String)
    (hst : t.status = "done") (hrec : t.recurrence = some r)
    (hne : strEmpty r = false) (hnn : pyLower r ≠ "none") :
    nextOccurrenceDate t today =
      match parseDate (baseDateStr t) with
      | .error _ => none
      | .ok base_date =>
        if (r == "daily") = true then
          some (catchUpFuel (advancePeriod "daily") today (toOrdinal today)
            (addDays 1 base_date))
        else if (r == "weekly") = true then
          some (catchUpFuel (advancePeriod "weekly") today (toOrdinal today)
            (addDays 7 base_date))
        else if (r == "monthly") = true then
          some (catchUpFuel (advancePeriod "monthly") today (toOrdinal today)
            (addMonthClamp base_date))
        else none := by
  unfold nextOccurrenceDate
  rw [hrec, hst]
  have h2 : recurFalsy (some r) = false := hne
  have h3 : (pyLower ((some r).getD "") != "none") = true := bne_iff_ne.mpr hnn
  rw [h2, h3]
  rfl

/-- C8: the next-occurrence computation of the `repeat` command.  The base date
is the completion date when present (truthy), else the add date; the candidate
starts one recurrence period after the base and is advanced period by period
while strictly before today, so the result is never in the past; and for a
monthly task whose completion lies exactly three calendar months back, the
result is the base advanced by exactly three calendar-correct months. -/
theorem c8_next_occurrence (t : Todo) (today b : Date)
    (hst : t.status = "done") (hbase : baseDateStr t = .valid b)
    (hvb : Valid b) (hvt : Valid today) :
    (t.date_completed = none → baseDateStr t = t.date_added)
    ∧ (∀ c : Date, t.date_completed = some (.valid c) → baseDateStr t = .valid c)
    ∧ (∀ r, t.recurrence = some r → (r = "daily" ∨ r = "weekly" ∨ r = "monthly") →
        ∃ c, nextOccurrenceDate t today = some c ∧ ¬ dateLt c today ∧ Valid c)
    ∧ (t.recurrence = some "monthly" →
        today = addMonthClamp (addMonthClamp (addMonthClamp b)) →
        nextOccurrenceDate t today
          = some (addMonthClamp (addMonthClamp (addMonthClamp b)))) := by
  refine ⟨?_, ?_, ?_, ?_⟩
  · intro h
    simp [baseDateStr, h]
  · intro c h
    simp [baseDateStr, h]
  · intro r hrec hr3
    have hne : strEmpty r = false := by
      rcases hr3 with rfl | rfl | rfl <;> decide
    have hnn : pyLower r ≠ "none" := by
      rcases hr3 with rfl | rfl | rfl <;> decide
    rw [nextOccurrenceDate_done t today r hst hrec hne hnn, hbase]
    rcases hr3 with rfl | rfl | rfl
    · rw [show (("daily" : String) == "daily") = true from by decide]
      simp only [if_true]
      obtain ⟨hvc, hc⟩ := catchUpFuel_ge (advancePeriod "daily") (advancePeriod_spec "daily")
        today hvt (toOrdinal today) (addDays 1 b) (addDays_valid 1 hvb) (by omega)
      exact ⟨_, rfl, hc, hvc⟩
    · rw [show (("weekly" : String) == "daily") = false from by decide,
        show (("weekly" : String) == "weekly") = true from by decide]
      simp only [Bool.false_eq_true, if_false, if_true]
      obtain ⟨hvc, hc⟩ := catchUpFuel_ge (advancePeriod "weekly") (advancePeriod_spec "weekly")
        today hvt (toOrdinal today) (addDays 7 b) (addDays_valid 7 hvb) (by omega)
      exact ⟨_, rfl, hc, hvc⟩
    · rw [show (("monthly" : String) == "daily") = false from by decide,
        show (("monthly" : String) == "weekly") = false from by decide,
        show (("monthly" : String) == "monthly") = true from by decide]
      simp only [Bool.false_eq_true, if_false, if_true]
      obtain ⟨hvc, hc⟩ := catchUpFuel_ge (advancePeriod "monthly")
        (advancePeriod_spec "monthly") today hvt (toOrdinal today) (addMonthClamp b)
        (addMonthClamp_valid hvb) (by omega)
      exact ⟨_, rfl, hc, hvc⟩
  · intro hrec htoday
    have hv1 : Valid (addMonthClamp b) := addMonthClamp_valid hvb
    have hv2 : Valid (addMonthClamp (addMonthClamp b)) := addMonthClamp_valid hv1
    have hv3 : Valid (addMonthClamp (addMonthClamp (addMonthClamp b))) :=
      addMonthClamp_valid hv2
    have ho1 : toOrdinal (addMonthClamp b)
        < toOrdinal (addMonthClamp (addMonthClamp (addMonthClamp b))) := by
      have := toOrdinal_lt_addMonthClamp hv1
      have := toOrdinal_lt_addMonthClamp hv2
      omega
    have ho2 : toOrdinal (addMonthClamp (addMonthClamp b))
        < toOrdinal (addMonthClamp (addMonthClamp (addMonthClamp b))) :=
      toOrdinal_lt_addMonthClamp hv2
    have lt1 : dateLt (addMonthClamp b) today := by
      rw [htoday]
      exact (toOrdinal_lt_iff hv1 hv3).mpr ho1
    have lt2 : dateLt (addMonthClamp (addMonthClamp b)) today := by
      rw [htoday]
      exact (toOrdinal_lt_iff hv2 hv3).mpr ho2
    have nlt3 : ¬ dateLt (addMonthClamp (addMonthClamp (addMonthClamp b))) today := by
      rw [htoday]
      exact dateLt_irrefl _
    rw [nextOccurrenceDate_done t today "monthly" hst hrec (by decide) (by decide), hbase]
    rw [show (("monthly" : String) == "daily") = false from by decide,
      show (("monthly" : String) == "weekly") = false from by decide,
      show (("monthly" : String) == "monthly") = true from by decide]
    simp only [Bool.false_eq_true, if_false, if_true]
    have hfuel : 2 ≤ toOrdinal today := by
      have := toOrdinal_pos hvb
      have := toOrdinal_lt_addMonthClamp hvb
      rw [htoday]
      omega
    obtain ⟨k, hk⟩ : ∃ k, toOrdinal today = k + 1 + 1 := ⟨toOrdinal today - 2, by omega⟩
    rw [hk]
    show some (catchUpFuel (advancePeriod "monthly") today (k + 1 + 1) (addMonthClamp b))
      = some (addMonthClamp (addMonthClamp (addMonthClamp b)))
    rw [catchUpFuel_step (advancePeriod "monthly") today (k + 1) (addMonthClamp b) lt1]
    have lt2' : dateLt (advancePeriod "monthly" (addMonthClamp b)) today := lt2
    rw [catchUpFuel_step (advancePeriod "monthly") today k
      (advancePeriod "monthly" (addMonthClamp b)) lt2']
    have nlt3' : ¬ dateLt
        (advancePeriod "monthly" (advancePeriod "monthly" (addMonthClamp b))) today := nlt3
    rw [catchUpFuel_exit (advancePeriod "monthly") today k
      (advancePeriod "monthly" (advancePeriod "monthly" (addMonthClamp b))) nlt3']
    rfl

/-- A done monthly task completed 2024-11-15, for the C8 witness. -/
def c8Task : Todo :=
  { task := "monthly report", priority := "high", due_date := none, status := "done",
    date_added := .valid ⟨2024, 10, 15⟩, date_completed := some (.valid ⟨2024, 11, 15⟩),
    recurrence := some "monthly", id := some 12, parent_id := none, aliasName := none }

/-- C8 (witness): the monthly task completed exactly three months before
2025-02-15 gets its next occurrence exactly on 2025-02-15. -/
theorem c8_next_occurrence_witness :
    nextOccurrenceDate c8Task ⟨2025, 2, 15⟩ = some ⟨2025, 2, 15⟩ := by
  have h := (c8_next_occurrence c8Task ⟨2025, 2, 15⟩ ⟨2024, 11, 15⟩ rfl rfl
    (by decide) (by decide)).2.2.2 rfl (by decide)
  rw [h]
  rfl

/-! ## Claim C9: date_completed iff done -/

/-- The claimed store invariant: a row has a completion date exactly when its
status is "done". -/
def completedIffDone (t : Todo) : Prop :=
  t.date_completed ≠ none ↔ t.status = "done"

/-- A done daily task (with its completion date set) from the day before. -/
def c9Task : Todo :=
  { task := "done daily", priority := "medium", due_date := none, status := "done",
    date_added := .valid ⟨2025, 3, 9⟩, date_completed := some (.valid ⟨2025, 3, 9⟩),
    recurrence := some "daily", id := some 11, parent_id := none, aliasName := none }

/-- C9 (counterexample): the refresh cycle's archive transition does NOT clear
`date_completed`: archiving a done recurring task leaves a record with status
"archived" and a non-null completion date, so "date_completed is non-null iff
status is done" fails after a refresh. -/
theorem c9_counterexample :
    (refreshAll ⟨2025, 3, 10⟩ [c9Task]).1.head? = some { c9Task with status := "archived" }
    ∧ ({ c9Task with status := "archived" } : Todo).status ≠ "done"
    ∧ ({ c9Task with status := "archived" } : Todo).date_completed ≠ none := by
  refine ⟨rfl, by decide, by decide⟩

/-- C9 (amended): `set_status` and `complete_todo` establish the
completion-date invariant on every row they produce, and the rows created by
the refresh cycle satisfy it; but the refresh archive transition keeps the old
`date_completed` unchanged, so after a refresh every row either satisfies the
invariant or is an archived row (which retains the completion date it had when
done). -/
theorem c9_completed_iff_done_ops :
    (∀ (store : List Todo) (tid : Nat) (st : String) (today : Date),
        (∀ t ∈ store, completedIffDone t) →
        ∀ u ∈ setStatusOp store tid st today, completedIffDone u)
    ∧ (∀ (store : List Todo) (tid : Nat) (today : Date),
        (∀ t ∈ store, completedIffDone t) →
        ∀ u ∈ completeOp store tid today, completedIffDone u)
    ∧ (∀ (today : Date) (store : List Todo),
        (∀ t ∈ store, completedIffDone t) →
        ∀ u ∈ (refreshAll today store).1, completedIffDone u ∨ u.status = "archived")
    ∧ (∀ (today : Date) (store : List Todo) (u : Todo),
        (archOf today store u).date_completed = u.date_completed) := by
  refine ⟨?_, ?_, ?_, ?_⟩
  · intro store tid st today hinv u hu
    obtain ⟨v, hv, rfl⟩ := List.mem_map.mp hu
    split_ifs with h hd
    · unfold completedIffDone
      simp only [beq_iff_eq] at hd
      simp [hd]
    · unfold completedIffDone
      simp only [beq_iff_eq] at hd
      simp [hd]
    · exact hinv v hv
  · intro store tid today hinv u hu
    obtain ⟨v, hv, rfl⟩ := List.mem_map.mp hu
    split_ifs with h
    · unfold completedIffDone
      simp
    · exact hinv v hv
  · intro today store hinv u hu
    rw [refreshAll_spec] at hu
    rcases List.mem_append.mp hu with h | h
    · obtain ⟨v, hv, rfl⟩ := List.mem_map.mp h
      unfold archOf
      split_ifs with ha
      · exact Or.inr rfl
      · exact Or.inl (hinv v hv)
    · obtain ⟨v, hv, rfl⟩ := List.mem_map.mp h
      refine Or.inl ?_
      unfold completedIffDone freshInstance mkTodo
      constructor
      · intro hc
        exact absurd rfl hc
      · intro hc
        have hps : normStatus "pending" = "done" := hc
        exact absurd hps (by decide)
  · intro today store u
    unfold archOf
    split_ifs <;> rfl

/-- C9 (witness): `set_status` re-establishes the invariant on a concrete row
moved away from done. -/
theorem c9_completed_iff_done_witness :
    completedIffDone { c9Task with status := "pending", date_completed := none } := by
  have h := c9_completed_iff_done_ops.1 [c9Task] 11 "pending" ⟨2025, 3, 10⟩
    (by intro t ht
        simp only [List.mem_singleton] at ht
        subst ht
        show c9Task.date_completed ≠ none ↔ c9Task.status = "done"
        simp [c9Task])
  refine h _ ?_
  show _ ∈ List.map _ [c9Task]
  simp only [List.map_cons, List.map_nil]
  left

end CliProd
